import Mathlib

/-!
Verification development for the cargo-apply harness (src/src/main.rs).

The Rust program is shallowly embedded below:
* `KrateName`, `krateStr` embed the `KrateName` struct and its Display impl;
* `krateCaptures`, `assembleExplicit`, `walkFiles`, `assemble_crate_names`
  embed `assemble_crate_names` and the `bad` filter over a modelled
  directory tree (file names are `Option String`: `none` stands for a
  name that is not valid UTF-8, where `OsStr.to_str()` returns `None`);
* `process_crate`, `runCrates` embed `process_crate` and the driver loop in
  `base_invocation`, over an explicit filesystem state plus an event trace;
  the re-invoked child process is an oracle parameter;
* `build_crate`, `recStatus` embed `build_crate` and the exit status of
  `recursive_invocation`, with the registry and build system as oracles.
-/

set_option autoImplicit false

namespace CargoApply

/-- Embeds the Rust struct `KrateName { name, version }`. -/
structure KrateName where
  name : String
  version : Option String
  deriving DecidableEq, Repr

/-- Embeds `impl fmt::Display for KrateName`: `name` or `name=version`. -/
def krateStr (k : KrateName) : String :=
  match k.version with
  | some v => k.name ++ "=" ++ v
  | none => k.name

/-- ASCII whitespace as matched by the regex class `\s` (the spec inputs are
ASCII, so the Unicode extension of `\s` is never exercised). -/
def rustWs (c : Char) : Bool :=
  c = ' ' || c = '\t' || c = '\n' || c = '\r' || c = '\x0b' || c = '\x0c'

/-- A character of the token class `[^=\s]`. -/
def tokChar (c : Char) : Bool :=
  !rustWs c && c != '='

/-- Attempt to match the regex `\s*([^=\s]+)\s*(?:=\s*([^=\s]+))?` at the
start of `s`, with the greedy leftmost-first semantics of the `regex` crate:
skip whitespace, take a maximal nonempty name token, skip whitespace, then
optionally take `=`, whitespace and a maximal nonempty version token (the
optional group is dropped when its token would be empty). -/
def matchAt (s : List Char) : Option (String × Option String) :=
  let s1 := s.dropWhile rustWs
  let name := s1.takeWhile tokChar
  if name.isEmpty then none
  else
    let rest := (s1.dropWhile tokChar).dropWhile rustWs
    match rest with
    | '=' :: rest2 =>
      let ver := (rest2.dropWhile rustWs).takeWhile tokChar
      if ver.isEmpty then some (name.asString, none)
      else some (name.asString, some ver.asString)
    | _ => some (name.asString, none)

/-- Embeds `regex.captures`: the search is unanchored and it returns the match at the leftmost
position where `matchAt` succeeds. -/
def findMatch : List Char → Option (String × Option String)
  | [] => none
  | c :: cs =>
    match matchAt (c :: cs) with
    | some r => some r
    | none => findMatch cs

/-- Embeds `regex.captures(&str)` followed by the construction of a
`KrateName` from capture groups 1 and 2 in `assemble_crate_names`. -/
def krateCaptures (s : String) : Option KrateName :=
  (findMatch s.toList).map (fun p => KrateName.mk p.1 p.2)

/-- Embeds the explicit (non-wildcard) branch of `assemble_crate_names`:
`arg_package_names.iter().map(parse).collect::<Result<Vec<_>, ()>>()`.
`collect` over `Result` stops at the first `Err`, and `map` is lazy, so
later specs are not parsed once one fails.  The first component collects
the `println!` diagnostics emitted while parsing. -/
def assembleExplicit : List String → List String × Except Unit (List KrateName)
  | [] => ([], Except.ok [])
  | s :: rest =>
    match krateCaptures s with
    | some k =>
      let r := assembleExplicit rest
      (r.1, r.2.map (fun ks => k :: ks))
    | none =>
      (["invalid package name / version `" ++ s ++ "`, try `foo` or `foo=0.1`"],
       Except.error ())

/-- A modelled directory tree.  A name is `some s` when it decodes as UTF-8
and `none` when `OsStr.to_str()` would return `None`. -/
inductive FsTree where
  | file (name : Option String)
  | dir (name : Option String) (children : List FsTree)

/-- Occurrence of `pat` at the front of a character list: the semantics
of Rust `str::starts_with` on decoded characters. -/
def charsStartWith : List Char → List Char → Bool
  | [], _ => true
  | _ :: _, [] => false
  | p :: ps, c :: cs => (c = p) && charsStartWith ps cs

/-- Embeds `s.starts_with(pat)`. -/
def strStarts (s pat : String) : Bool :=
  charsStartWith pat.toList s.toList

/-- Embeds `s.ends_with(pat)`. -/
def strEnds (s pat : String) : Bool :=
  charsStartWith pat.toList.reverse s.toList.reverse

/-- Embeds `fn bad(entry: &DirEntry) -> bool`:
`entry.file_name().to_str().map(|s| s.starts_with(".") || s.ends_with(".json")).unwrap_or(false)`. -/
def bad (name : Option String) : Bool :=
  (name.map (fun s => strStarts s "." || strEnds s ".json")).getD false

mutual

/-- Embeds the `WalkDir` pipeline of the wildcard branch:
`WalkDir::new(index_path).filter_entry(|e| !bad(e)).filter(|e| e.file_type().is_file())`.
`filter_entry` prunes an entry and, for a directory, its whole subtree;
the remaining regular files are listed in depth-first traversal order,
by file name (still undecoded). -/
def walkFiles : FsTree → List (Option String)
  | FsTree.file n => if bad n then [] else [n]
  | FsTree.dir n cs => if bad n then [] else walkFilesList cs

/-- Depth-first traversal of a child list for `walkFiles`. -/
def walkFilesList : List FsTree → List (Option String)
  | [] => []
  | t :: ts => walkFiles t ++ walkFilesList ts

end

/-- Decode a list of surviving file names, embedding
`.map(|e| e.file_name().to_str().unwrap().to_string())` and the
construction of version-free `KrateName`s: the result is `none` exactly
when `to_str().unwrap()` panics on a name that is not valid UTF-8. -/
def decodeNames : List (Option String) → Option (List KrateName)
  | [] => some []
  | none :: _ => none
  | some s :: rest => (decodeNames rest).map (fun ks => KrateName.mk s none :: ks)

/-- The wildcard branch of `assemble_crate_names`: walk, filter, decode. -/
def wildcardNames (index : FsTree) : Option (List KrateName) :=
  decodeNames (walkFiles index)

/-- Embeds `assemble_crate_names(arg_package_names, index_path)`.  The outer
`Option` is `none` when the function panics (non-UTF-8 file name in the
wildcard branch); the `List String` collects `println!` diagnostics. -/
def assemble_crate_names (specs : List String) (index : FsTree) :
    List String × Option (Except Unit (List KrateName)) :=
  if specs.any (fun s => s == "*") then
    ([], (wildcardNames index).map Except.ok)
  else
    let r := assembleExplicit specs
    (r.1, some r.2)

/-- Which of the three per-package files under `output/<krate>/` a key
refers to: `stdout`, `stderr` or `results.txt`. -/
inductive FileKind where
  | stdout
  | stderr
  | results
  deriving DecidableEq, Repr

/-- A per-package file is addressed by the package identifier string
(`krate.to_string()`, the directory name) and the file kind. -/
abbrev FKey := String × FileKind

/-- Filesystem lookup: `fs::metadata(..).is_ok()` is `(fsGet ..).isSome`,
and reading a file returns its content. -/
def fsGet : List (FKey × String) → FKey → Option String
  | [], _ => none
  | e :: fs, k => if e.1 = k then some e.2 else fsGet fs k

/-- Embeds `fs::remove_file` (with its `Result` ignored): drops every binding of
the key, a no-op when the file does not exist. -/
def fsDel : List (FKey × String) → FKey → List (FKey × String)
  | [], _ => []
  | e :: fs, k => if e.1 = k then fsDel fs k else e :: fsDel fs k

/-- Embeds `File::create` followed by writing `v`: truncating create, so the new
content replaces any old content. -/
def fsSet (fs : List (FKey × String)) (k : FKey) (v : String) :
    List (FKey × String) :=
  (k, v) :: fsDel fs k

/-- Number of bindings of a key (a well-formed filesystem has at most
one). -/
def fsCount : List (FKey × String) → FKey → Nat
  | [], _ => 0
  | e :: fs, k => (if e.1 = k then 1 else 0) + fsCount fs k

/-- The observable state of the harness: the per-package files under the
output directory, and the lines printed to the driver console. -/
structure Sim where
  files : List (FKey × String)
  log : List String
  deriving Repr

/-- What `Command::output()` returns for the re-invoked child once it has
terminated (normally or killed by a signal): captured stdio, the Debug
rendering of the `ExitStatus`, and `status.success()`. -/
structure ChildOut where
  stdout : String
  stderr : String
  statusRepr : String
  statusSuccess : Bool
  deriving DecidableEq, Repr

/-- One filesystem action (or the child spawn) taken by `process_crate`,
in program order. -/
inductive FsEvent where
  | createDirAll (dir : String)
  | removeFile (key : FKey)
  | spawn (k : KrateName)
  | createWrite (key : FKey)
  deriving DecidableEq, Repr

/-- Embeds `process_crate(config_options, output_dir, args, krate)`.  The
child process is the oracle `child`: `Except.error e` models
`Command::output()` itself failing (the `?` propagates `e`), `Except.ok`
models a terminated child, crashed or not.  Returns the `Result`, the new
state, and the trace of filesystem actions of this attempt. -/
def process_crate (force : Bool) (child : KrateName → Except String ChildOut)
    (k : KrateName) (st : Sim) : Except String Unit × Sim × List FsEvent :=
  let ks := krateStr k
  if (fsGet st.files (ks, FileKind.results)).isSome && !force then
    (Except.ok (),
     { st with log := st.log ++ [ks ++ ": re-using existing results"] },
     [FsEvent.createDirAll ks])
  else
    let st1 : Sim := { st with log := st.log ++ [ks ++ ": processing"] }
    let files1 :=
      fsDel (fsDel (fsDel st1.files (ks, FileKind.stdout))
        (ks, FileKind.stderr)) (ks, FileKind.results)
    let evs := [FsEvent.createDirAll ks,
                FsEvent.removeFile (ks, FileKind.stdout),
                FsEvent.removeFile (ks, FileKind.stderr),
                FsEvent.removeFile (ks, FileKind.results)]
    match child k with
    | Except.error e =>
      (Except.error e, { st1 with files := files1 },
       evs ++ [FsEvent.spawn k])
    | Except.ok out =>
      let files2 :=
        fsSet (fsSet (fsSet files1 (ks, FileKind.stdout) out.stdout)
          (ks, FileKind.stderr) out.stderr)
          (ks, FileKind.results) ("exit code `" ++ out.statusRepr ++ "`")
      let log2 :=
        if !out.statusSuccess then
          st1.log ++ [ks ++ ": completed with error code " ++ out.statusRepr]
        else st1.log
      (Except.ok (), { files := files2, log := log2 },
       evs ++ [FsEvent.spawn k,
               FsEvent.createWrite (ks, FileKind.stdout),
               FsEvent.createWrite (ks, FileKind.stderr),
               FsEvent.createWrite (ks, FileKind.results)])

/-- One iteration of the driver loop of `base_invocation`: call
`process_crate`; on `Ok(())` keep its state, on `Err(err)` print the
diagnostic `"{krate}: error `{err}`"` and keep going. -/
def stepState (force : Bool) (child : KrateName → Except String ChildOut)
    (k : KrateName) (st : Sim) : Sim :=
  match process_crate force child k st with
  | (Except.ok _, st1, _) => st1
  | (Except.error e, st1, _) =>
    { st1 with log := st1.log ++ [krateStr k ++ ": error `" ++ e ++ "`"] }

/-- Embeds the driver loop of `base_invocation` over the assembled crate
list: a per-package error never stops the loop. -/
def runCrates (force : Bool) (child : KrateName → Except String ChildOut) :
    List KrateName → Sim → Sim × List FsEvent
  | [], st => (st, [])
  | k :: ks, st =>
    let rest := runCrates force child ks (stepState force child k st)
    (rest.1, (process_crate force child k st).2.2 ++ rest.2)

/-- The crates spawned (attempted) during a trace, in order. -/
def spawnsOf (evs : List FsEvent) : List KrateName :=
  evs.filterMap (fun e =>
    match e with
    | FsEvent.spawn k => some k
    | _ => none)

/-- Exit status of `base_invocation`, which returns `()`: after the
loop finishes (every package completed or skipped, whatever the
per-package results were) the process exits with status 0. -/
def driverExit (force : Bool) (child : KrateName → Except String ChildOut)
    (crates : List KrateName) (st : Sim) : Nat :=
  let _ := runCrates force child crates st
  0

/-- The flag fields of the Rust `Args` struct. -/
structure Args where
  flag_out : String
  flag_release : Bool
  flag_test : Bool
  flag_bench : Bool
  flag_force : Bool
  deriving DecidableEq, Repr

/-- Oracle results of the external collaborators used by `build_crate`:
`Dependency::parse`, `src.query` (the version numbers found),
`src.download`, `ops::compile_pkg`, `ops::run_tests`, `ops::run_benches`
(the `Nat` payloads stand for the measured durations). -/
structure Delegate where
  depParse : Except String Unit
  query : Except String (List Nat)
  download : Except String Unit
  compile : Except String Nat
  test : Except String Nat
  bench : Except String Nat
  deriving Repr

/-- The error value with which `build_crate` returns `Err`, tagged by the
stage it came from.  `notInRegistry` and `failedToDownload` are the two
constructors of the Rust `BuildError` enum; the others are the delegate
errors propagated by `?`. -/
inductive BuildErr where
  | depParseErr (msg : String)
  | queryErr (msg : String)
  | notInRegistry (k : KrateName)
  | failedToDownload (k : KrateName) (msg : String)
  | compileErr (msg : String)
  | testErr (msg : String)
  | benchErr (msg : String)
  deriving DecidableEq, Repr

/-- Embeds `build_crate(work_dir, krate, args)`: resolve the dependency,
pick the highest matching version, download, compile, then run tests and
benchmarks when the flags ask for them; every stage error is returned via
`?` or an explicit `return Err(..)`.  On success the build, test and bench
durations are returned. -/
def build_crate (args : Args) (k : KrateName) (d : Delegate) :
    Except BuildErr (Nat × Option Nat × Option Nat) :=
  match d.depParse with
  | Except.error m => Except.error (BuildErr.depParseErr m)
  | Except.ok _ =>
    match d.query with
    | Except.error m => Except.error (BuildErr.queryErr m)
    | Except.ok pkgs =>
      match pkgs.max? with
      | none => Except.error (BuildErr.notInRegistry k)
      | some _ =>
        match d.download with
        | Except.error m => Except.error (BuildErr.failedToDownload k m)
        | Except.ok _ =>
          match d.compile with
          | Except.error m => Except.error (BuildErr.compileErr m)
          | Except.ok buildTime =>
            match (if args.flag_test then (d.test).map some else Except.ok none) with
            | Except.error m => Except.error (BuildErr.testErr m)
            | Except.ok testTime =>
              match (if args.flag_bench then (d.bench).map some else Except.ok none) with
              | Except.error m => Except.error (BuildErr.benchErr m)
              | Except.ok benchTime => Except.ok (buildTime, testTime, benchTime)

/-- Exit status of the re-invoked child (`recursive_invocation`): it calls
`build_crate(..).unwrap()`, so `Err` panics and the process exits with
status 101, while `Ok` falls through to a normal exit 0. -/
def recStatus (args : Args) (k : KrateName) (d : Delegate) : Nat :=
  match build_crate args k d with
  | Except.ok _ => 0
  | Except.error _ => 101

/-- The single record `process_crate` writes to `results.txt`:
`write!(result_file, "exit code `{:?}`", output.status)` — a function of
the exit status alone. -/
def resultRecord (statusRepr : String) : String :=
  "exit code `" ++ statusRepr ++ "`"

/-- The Debug rendering of an `ExitStatus` with exit code `c` (what `{:?}`
prints for a normally-exited child). -/
def statusReprOf (c : Nat) : String :=
  "ExitStatus(unix_wait_status(" ++ toString (c * 256) ++ "))"

/-- Embeds the dispatch at the top of `main`: collect `env::args()` and
test `args[1] == "--recurse"` before anything else.  `args[1]` on a
vector of length below 2 is an out-of-bounds index, i.e. a panic, which
the `none` result models; otherwise `some true` enters
`recursive_invocation` and `some false` enters `base_invocation` (only
there is Docopt parsing — and hence the usage message — ever reached). -/
def mainDispatch (argv : List String) : Option Bool :=
  match argv.get? 1 with
  | none => none
  | some a => some (a == "--recurse")

/-- Modelled from the spec: the closed six-kind outcome taxonomy that
section 3 of the spec assigns to an attempt (`Success`, `NotFound`,
`DownloadFailed`, `BuildFailed`, `TestFailed`, `Crashed`).  Used only to
compare the spec's classification contract with what the code records. -/
inductive SpecOutcome where
  | success
  | notFound
  | downloadFailed
  | buildFailed
  | testFailed
  | crashed
  deriving DecidableEq, Repr

/-- The index directory of the wildcard enumeration example: files `a`,
`b`, `.hidden`, `meta.json` and a subdirectory `c` holding file `d`. -/
def sampleIndex : FsTree :=
  FsTree.dir (some "index")
    [FsTree.file (some "a"), FsTree.file (some "b"),
     FsTree.file (some ".hidden"), FsTree.file (some "meta.json"),
     FsTree.dir (some "c") [FsTree.file (some "d")]]

/-- An index holding a regular file whose name is not valid UTF-8 (its
`to_str()` is `None`), next to an ordinary file. -/
def sampleBadIndex : FsTree :=
  FsTree.dir (some "index")
    [FsTree.file (some "a"), FsTree.file none]

/-- A filesystem is well formed when no path has two bindings. -/
def fsWf (fs : List (FKey × String)) : Prop :=
  ∀ key, fsCount fs key ≤ 1

theorem fsGet_fsDel_self (fs : List (FKey × String)) (k : FKey) :
    fsGet (fsDel fs k) k = none := by
  induction fs with
  | nil => rfl
  | cons e fs ih =>
    by_cases h : e.1 = k <;> simp [fsDel, fsGet, h, ih]

theorem fsGet_fsDel_ne (fs : List (FKey × String)) (k k' : FKey)
    (h : k' ≠ k) : fsGet (fsDel fs k) k' = fsGet fs k' := by
  induction fs with
  | nil => rfl
  | cons e fs ih =>
    by_cases he : e.1 = k
    · have hne : e.1 ≠ k' := fun hk => h (by rw [← hk, he])
      simp [fsDel, fsGet, he, hne, Ne.symm h, ih]
    · by_cases he' : e.1 = k' <;> simp [fsDel, fsGet, he, he', h, ih]

theorem fsGet_fsSet_self (fs : List (FKey × String)) (k : FKey) (v : String) :
    fsGet (fsSet fs k v) k = some v := by
  simp [fsSet, fsGet]

theorem fsGet_fsSet_ne (fs : List (FKey × String)) (k k' : FKey) (v : String)
    (h : k' ≠ k) : fsGet (fsSet fs k v) k' = fsGet fs k' := by
  simp [fsSet, fsGet, Ne.symm h]
  exact fsGet_fsDel_ne fs k k' h

theorem fsCount_fsDel_self (fs : List (FKey × String)) (k : FKey) :
    fsCount (fsDel fs k) k = 0 := by
  induction fs with
  | nil => rfl
  | cons e fs ih =>
    by_cases h : e.1 = k <;> simp [fsDel, fsCount, h, ih]

theorem fsCount_fsDel_ne (fs : List (FKey × String)) (k k' : FKey)
    (h : k' ≠ k) : fsCount (fsDel fs k) k' = fsCount fs k' := by
  induction fs with
  | nil => rfl
  | cons e fs ih =>
    by_cases he : e.1 = k
    · have hne : e.1 ≠ k' := fun hk => h (by rw [← hk, he])
      simp [fsDel, fsCount, he, hne, Ne.symm h, ih]
    · by_cases he' : e.1 = k' <;> simp [fsDel, fsCount, he, he', h, ih]

theorem fsCount_fsSet_self (fs : List (FKey × String)) (k : FKey) (v : String) :
    fsCount (fsSet fs k v) k = 1 := by
  simp [fsSet, fsCount, fsCount_fsDel_self]

theorem fsCount_fsSet_ne (fs : List (FKey × String)) (k k' : FKey) (v : String)
    (h : k' ≠ k) : fsCount (fsSet fs k v) k' = fsCount fs k' := by
  simp [fsSet, fsCount, Ne.symm h]
  exact fsCount_fsDel_ne fs k k' h

theorem fsCount_pos_of_isSome (fs : List (FKey × String)) (k : FKey)
    (h : (fsGet fs k).isSome = true) : 1 ≤ fsCount fs k := by
  induction fs with
  | nil => simp [fsGet] at h
  | cons e fs ih =>
    by_cases he : e.1 = k
    · simp [fsCount, he]
    · simp [fsGet, he] at h
      have h1 := ih h
      simp [fsCount, he]
      omega

theorem fsWf_fsDel (fs : List (FKey × String)) (k : FKey) (h : fsWf fs) :
    fsWf (fsDel fs k) := by
  intro key
  by_cases hk : key = k
  · simp [hk, fsCount_fsDel_self]
  · rw [fsCount_fsDel_ne fs k key hk]
    exact h key

theorem fsWf_fsSet (fs : List (FKey × String)) (k : FKey) (v : String)
    (h : fsWf fs) : fsWf (fsSet fs k v) := by
  intro key
  by_cases hk : key = k
  · simp [hk, fsCount_fsSet_self]
  · rw [fsCount_fsSet_ne fs k key v hk]
    exact h key

theorem process_crate_skip (force : Bool)
    (child : KrateName → Except String ChildOut) (k : KrateName) (st : Sim)
    (hres : (fsGet st.files (krateStr k, FileKind.results)).isSome = true)
    (hforce : force = false) :
    process_crate force child k st =
      (Except.ok (),
       { st with log := st.log ++ [krateStr k ++ ": re-using existing results"] },
       [FsEvent.createDirAll (krateStr k)]) := by
  simp [process_crate, hres, hforce]

theorem process_crate_run_err (force : Bool)
    (child : KrateName → Except String ChildOut) (k : KrateName) (st : Sim)
    (e : String)
    (hcond : ((fsGet st.files (krateStr k, FileKind.results)).isSome && !force)
      = false)
    (hchild : child k = Except.error e) :
    process_crate force child k st =
      (Except.error e,
       Sim.mk
         (fsDel (fsDel (fsDel st.files (krateStr k, FileKind.stdout))
           (krateStr k, FileKind.stderr)) (krateStr k, FileKind.results))
         (st.log ++ [krateStr k ++ ": processing"]),
       [FsEvent.createDirAll (krateStr k),
        FsEvent.removeFile (krateStr k, FileKind.stdout),
        FsEvent.removeFile (krateStr k, FileKind.stderr),
        FsEvent.removeFile (krateStr k, FileKind.results),
        FsEvent.spawn k]) := by
  simp [process_crate, hcond, hchild]

theorem process_crate_run_ok (force : Bool)
    (child : KrateName → Except String ChildOut) (k : KrateName) (st : Sim)
    (out : ChildOut)
    (hcond : ((fsGet st.files (krateStr k, FileKind.results)).isSome && !force)
      = false)
    (hchild : child k = Except.ok out) :
    process_crate force child k st =
      (Except.ok (),
       Sim.mk
         (fsSet (fsSet (fsSet
           (fsDel (fsDel (fsDel st.files (krateStr k, FileKind.stdout))
             (krateStr k, FileKind.stderr)) (krateStr k, FileKind.results))
           (krateStr k, FileKind.stdout) out.stdout)
           (krateStr k, FileKind.stderr) out.stderr)
           (krateStr k, FileKind.results)
           ("exit code `" ++ out.statusRepr ++ "`"))
         (if !out.statusSuccess then
            st.log ++ [krateStr k ++ ": processing",
              krateStr k ++ ": completed with error code " ++ out.statusRepr]
          else st.log ++ [krateStr k ++ ": processing"]),
       [FsEvent.createDirAll (krateStr k),
        FsEvent.removeFile (krateStr k, FileKind.stdout),
        FsEvent.removeFile (krateStr k, FileKind.stderr),
        FsEvent.removeFile (krateStr k, FileKind.results),
        FsEvent.spawn k,
        FsEvent.createWrite (krateStr k, FileKind.stdout),
        FsEvent.createWrite (krateStr k, FileKind.stderr),
        FsEvent.createWrite (krateStr k, FileKind.results)]) := by
  by_cases hs : out.statusSuccess <;> simp [process_crate, hcond, hchild, hs]

theorem process_crate_files_other (force : Bool)
    (child : KrateName → Except String ChildOut) (k : KrateName) (st : Sim)
    (key : FKey) (h : key.1 ≠ krateStr k) :
    fsGet (process_crate force child k st).2.1.files key = fsGet st.files key := by
  have h1 : key ≠ (krateStr k, FileKind.stdout) := fun hk => h (by rw [hk])
  have h2 : key ≠ (krateStr k, FileKind.stderr) := fun hk => h (by rw [hk])
  have h3 : key ≠ (krateStr k, FileKind.results) := fun hk => h (by rw [hk])
  by_cases hcond :
      ((fsGet st.files (krateStr k, FileKind.results)).isSome && !force) = true
  · simp [process_crate, hcond]
  · have hcond' :
        ((fsGet st.files (krateStr k, FileKind.results)).isSome && !force)
          = false := by
      simpa using hcond
    cases hc : child k with
    | error e =>
      rw [process_crate_run_err force child k st e hcond' hc]
      simp only []
      rw [fsGet_fsDel_ne _ _ _ h3, fsGet_fsDel_ne _ _ _ h2,
        fsGet_fsDel_ne _ _ _ h1]
    | ok out =>
      rw [process_crate_run_ok force child k st out hcond' hc]
      simp only []
      rw [fsGet_fsSet_ne _ _ _ _ h3, fsGet_fsSet_ne _ _ _ _ h2,
        fsGet_fsSet_ne _ _ _ _ h1, fsGet_fsDel_ne _ _ _ h3,
        fsGet_fsDel_ne _ _ _ h2, fsGet_fsDel_ne _ _ _ h1]

theorem stepState_files (force : Bool)
    (child : KrateName → Except String ChildOut) (k : KrateName) (st : Sim) :
    (stepState force child k st).files = (process_crate force child k st).2.1.files := by
  unfold stepState
  rcases h : process_crate force child k st with ⟨r, st1, tr⟩
  cases r <;> simp

theorem stepState_files_other (force : Bool)
    (child : KrateName → Except String ChildOut) (k : KrateName) (st : Sim)
    (key : FKey) (h : key.1 ≠ krateStr k) :
    fsGet (stepState force child k st).files key = fsGet st.files key := by
  rw [stepState_files]
  exact process_crate_files_other force child k st key h

theorem stepState_marker_ok (force : Bool)
    (child : KrateName → Except String ChildOut) (k : KrateName) (st : Sim)
    (out : ChildOut) (hchild : child k = Except.ok out) :
    (fsGet (stepState force child k st).files
      (krateStr k, FileKind.results)).isSome = true := by
  rw [stepState_files]
  by_cases hcond :
      ((fsGet st.files (krateStr k, FileKind.results)).isSome && !force) = true
  · have h' := hcond
    simp only [Bool.and_eq_true] at h'
    obtain ⟨hres, hf2⟩ := h'
    have hf : force = false := by simpa using hf2
    rw [process_crate_skip force child k st hres hf]
    simpa using hres
  · have hcond' :
        ((fsGet st.files (krateStr k, FileKind.results)).isSome && !force)
          = false := by
      simpa using hcond
    rw [process_crate_run_ok force child k st out hcond' hchild]
    simp [fsGet_fsSet_self]

theorem stepState_wf (force : Bool)
    (child : KrateName → Except String ChildOut) (k : KrateName) (st : Sim)
    (h : fsWf st.files) : fsWf (stepState force child k st).files := by
  rw [stepState_files]
  by_cases hcond :
      ((fsGet st.files (krateStr k, FileKind.results)).isSome && !force) = true
  · simpa [process_crate, hcond] using h
  · have hcond' :
        ((fsGet st.files (krateStr k, FileKind.results)).isSome && !force)
          = false := by
      simpa using hcond
    cases hc : child k with
    | error e =>
      rw [process_crate_run_err force child k st e hcond' hc]
      exact fsWf_fsDel _ _ (fsWf_fsDel _ _ (fsWf_fsDel _ _ h))
    | ok out =>
      rw [process_crate_run_ok force child k st out hcond' hc]
      exact fsWf_fsSet _ _ _ (fsWf_fsSet _ _ _ (fsWf_fsSet _ _ _
        (fsWf_fsDel _ _ (fsWf_fsDel _ _ (fsWf_fsDel _ _ h)))))

theorem stepState_err_log (force : Bool)
    (child : KrateName → Except String ChildOut) (k : KrateName) (st : Sim)
    (e : String)
    (hcond : ((fsGet st.files (krateStr k, FileKind.results)).isSome && !force)
      = false)
    (hchild : child k = Except.error e) :
    (stepState force child k st).log =
      st.log ++ [krateStr k ++ ": processing",
        krateStr k ++ ": error `" ++ e ++ "`"] := by
  unfold stepState
  rw [process_crate_run_err force child k st e hcond hchild]
  simp

/-- Whether an oracle result is `Ok`. -/
def exceptOk {ε α : Type} : Except ε α → Bool
  | Except.ok _ => true
  | Except.error _ => false

theorem exceptOk_exists {ε α : Type} (x : Except ε α) (h : exceptOk x = true) :
    ∃ b, x = Except.ok b := by
  cases x with
  | ok b => exact ⟨b, rfl⟩
  | error a => simp [exceptOk] at h

theorem stepState_skip (force : Bool)
    (child : KrateName → Except String ChildOut) (k : KrateName) (st : Sim)
    (hres : (fsGet st.files (krateStr k, FileKind.results)).isSome = true)
    (hforce : force = false) :
    stepState force child k st =
      { st with log := st.log ++ [krateStr k ++ ": re-using existing results"] } := by
  unfold stepState
  rw [process_crate_skip force child k st hres hforce]

theorem process_crate_spawns_run (force : Bool)
    (child : KrateName → Except String ChildOut) (k : KrateName) (st : Sim)
    (hcond : ((fsGet st.files (krateStr k, FileKind.results)).isSome && !force)
      = false) :
    spawnsOf (process_crate force child k st).2.2 = [k] := by
  cases hc : child k with
  | error e =>
    rw [process_crate_run_err force child k st e hcond hc]
    simp [spawnsOf]
  | ok out =>
    rw [process_crate_run_ok force child k st out hcond hc]
    simp [spawnsOf]

theorem runCrates_cons (force : Bool)
    (child : KrateName → Except String ChildOut) (k : KrateName)
    (ks : List KrateName) (st : Sim) :
    runCrates force child (k :: ks) st =
      ((runCrates force child ks (stepState force child k st)).1,
       (process_crate force child k st).2.2 ++
         (runCrates force child ks (stepState force child k st)).2) := rfl

theorem runCrates_files_other (force : Bool)
    (child : KrateName → Except String ChildOut) (crates : List KrateName)
    (st : Sim) (key : FKey) (h : ∀ k ∈ crates, key.1 ≠ krateStr k) :
    fsGet (runCrates force child crates st).1.files key = fsGet st.files key := by
  induction crates generalizing st with
  | nil => rfl
  | cons k ks ih =>
    rw [runCrates_cons]
    have h1 := ih (stepState force child k st)
      (fun k' hk' => h k' (List.mem_cons_of_mem _ hk'))
    simpa [h1] using
      stepState_files_other force child k st key (h k (List.mem_cons_self _ _))

theorem runCrates_marked_untouched
    (child : KrateName → Except String ChildOut) (crates : List KrateName)
    (st : Sim) (s : String) (kind : FileKind)
    (hres : (fsGet st.files (s, FileKind.results)).isSome = true) :
    fsGet (runCrates false child crates st).1.files (s, kind) =
      fsGet st.files (s, kind) := by
  induction crates generalizing st with
  | nil => rfl
  | cons k ks ih =>
    rw [runCrates_cons]
    by_cases hk : krateStr k = s
    · have hres' :
          (fsGet st.files (krateStr k, FileKind.results)).isSome = true := by
        rw [hk]; exact hres
      rw [stepState_skip false child k st hres' rfl]
      exact ih _ (by simpa using hres)
    · have hother : ∀ kd : FileKind,
          fsGet (stepState false child k st).files (s, kd) = fsGet st.files (s, kd) :=
        fun kd => stepState_files_other false child k st (s, kd)
          (fun he => hk he.symm)
      rw [ih _ (by rw [hother FileKind.results]; exact hres), hother kind]

theorem runCrates_marker_preserved (force : Bool)
    (child : KrateName → Except String ChildOut) (crates : List KrateName)
    (st : Sim) (s : String)
    (hok : ∀ k' ∈ crates, krateStr k' = s → exceptOk (child k') = true)
    (hres : (fsGet st.files (s, FileKind.results)).isSome = true) :
    (fsGet (runCrates force child crates st).1.files (s, FileKind.results)).isSome
      = true := by
  induction crates generalizing st with
  | nil => exact hres
  | cons k ks ih =>
    rw [runCrates_cons]
    by_cases hk : krateStr k = s
    · obtain ⟨out, hout⟩ := exceptOk_exists (child k)
        (hok k (List.mem_cons_self _ _) hk)
      have hstep := stepState_marker_ok force child k st out hout
      exact ih _ (fun k' h' hs => hok k' (List.mem_cons_of_mem _ h') hs)
        (hk ▸ hstep)
    · have hother :
          fsGet (stepState force child k st).files (s, FileKind.results) =
            fsGet st.files (s, FileKind.results) :=
        stepState_files_other force child k st (s, FileKind.results)
          (fun he => hk he.symm)
      exact ih _ (fun k' h' hs => hok k' (List.mem_cons_of_mem _ h') hs)
        (by rw [hother]; exact hres)

theorem runCrates_marker_after (force : Bool)
    (child : KrateName → Except String ChildOut) (crates : List KrateName)
    (st : Sim) (k : KrateName) (hk : k ∈ crates)
    (hok : ∀ k' ∈ crates, krateStr k' = krateStr k → exceptOk (child k') = true) :
    (fsGet (runCrates force child crates st).1.files
      (krateStr k, FileKind.results)).isSome = true := by
  induction crates generalizing st with
  | nil => cases hk
  | cons k0 ks ih =>
    rw [runCrates_cons]
    rcases List.mem_cons.mp hk with heq | hmem
    · subst heq
      obtain ⟨out, hout⟩ := exceptOk_exists (child k)
        (hok k (List.mem_cons_self _ _) rfl)
      have hstep := stepState_marker_ok force child k st out hout
      exact runCrates_marker_preserved force child ks _ (krateStr k)
        (fun k' h' hs => hok k' (List.mem_cons_of_mem _ h') hs) hstep
    · exact ih _ hmem (fun k' h' hs => hok k' (List.mem_cons_of_mem _ h') hs)

theorem runCrates_wf (force : Bool)
    (child : KrateName → Except String ChildOut) (crates : List KrateName)
    (st : Sim) (h : fsWf st.files) :
    fsWf (runCrates force child crates st).1.files := by
  induction crates generalizing st with
  | nil => exact h
  | cons k ks ih =>
    rw [runCrates_cons]
    exact ih _ (stepState_wf force child k st h)

theorem runCrates_all_marked
    (child : KrateName → Except String ChildOut) (crates : List KrateName)
    (st : Sim)
    (h : ∀ k ∈ crates,
      (fsGet st.files (krateStr k, FileKind.results)).isSome = true) :
    runCrates false child crates st =
      (Sim.mk st.files (st.log ++
         crates.map (fun k => krateStr k ++ ": re-using existing results")),
       crates.map (fun k => FsEvent.createDirAll (krateStr k))) := by
  induction crates generalizing st with
  | nil => simp [runCrates]
  | cons k ks ih =>
    have hres := h k (List.mem_cons_self _ _)
    rw [runCrates_cons, stepState_skip false child k st hres rfl,
      process_crate_skip false child k st hres rfl]
    rw [ih _ (fun k' hk' => by simpa using h k' (List.mem_cons_of_mem _ hk'))]
    simp

theorem spawnsOf_append (a b : List FsEvent) :
    spawnsOf (a ++ b) = spawnsOf a ++ spawnsOf b := by
  simp [spawnsOf]

theorem runCrates_spawns_filter
    (child : KrateName → Except String ChildOut) (crates : List KrateName)
    (st : Sim) (hnd : (crates.map krateStr).Nodup) :
    spawnsOf (runCrates false child crates st).2 =
      crates.filter
        (fun k => (fsGet st.files (krateStr k, FileKind.results)).isNone) := by
  induction crates generalizing st with
  | nil => rfl
  | cons k ks ih =>
    rw [runCrates_cons, spawnsOf_append]
    have hnd0 : (∀ x ∈ ks, ¬krateStr x = krateStr k) ∧
        (ks.map krateStr).Nodup := by
      simpa using hnd
    have hnd' : (ks.map krateStr).Nodup := hnd0.2
    have hkn : ∀ k' ∈ ks, krateStr k' ≠ krateStr k :=
      fun k' hk' => hnd0.1 k' hk'
    cases hfs : fsGet st.files (krateStr k, FileKind.results) with
    | some v =>
      have hres : (fsGet st.files (krateStr k, FileKind.results)).isSome = true := by
        rw [hfs]; rfl
      rw [stepState_skip false child k st hres rfl,
        process_crate_skip false child k st hres rfl]
      rw [ih _ hnd']
      simp [spawnsOf, hfs]
    | none =>
      have hcond :
          ((fsGet st.files (krateStr k, FileKind.results)).isSome && !false)
            = false := by
        rw [hfs]; rfl
      rw [process_crate_spawns_run false child k st hcond, ih _ hnd']
      have hfilter :
          ks.filter (fun k' =>
            (fsGet (stepState false child k st).files
              (krateStr k', FileKind.results)).isNone) =
          ks.filter (fun k' =>
            (fsGet st.files (krateStr k', FileKind.results)).isNone) := by
        apply List.filter_congr
        intro k' hk'
        rw [stepState_files_other false child k st
          (krateStr k', FileKind.results) (hkn k' hk')]
      rw [hfilter]
      simp [hfs]

theorem decodeNames_none (l : List (Option String)) (h : none ∈ l) :
    decodeNames l = none := by
  induction l with
  | nil => cases h
  | cons a l ih =>
    cases a with
    | none => rfl
    | some s =>
      rcases List.mem_cons.mp h with heq | hmem
      · exact absurd heq (by simp)
      · simp [decodeNames, ih hmem]

theorem decodeNames_mem (l : List (Option String)) (names : List KrateName)
    (h : decodeNames l = some names) :
    ∀ k ∈ names, k.version = none ∧ some k.name ∈ l := by
  induction l generalizing names with
  | nil =>
    have : names = [] := by simpa [decodeNames] using h.symm
    subst this
    intro k hk
    cases hk
  | cons a l ih =>
    cases a with
    | none => exact absurd h (by simp [decodeNames])
    | some s =>
      cases hd : decodeNames l with
      | none => rw [decodeNames, hd] at h; cases h
      | some ns =>
        rw [decodeNames, hd] at h
        have hnames : names = KrateName.mk s none :: ns := by
          simpa using h.symm
        subst hnames
        intro k hk
        rcases List.mem_cons.mp hk with heq | hmem
        · subst heq
          exact ⟨rfl, List.mem_cons_self _ _⟩
        · have h2 := ih ns hd k hmem
          exact ⟨h2.1, List.mem_cons_of_mem _ h2.2⟩

theorem assembleExplicit_bad (pre : List String) (s : String)
    (post : List String)
    (hpre : ∀ p ∈ pre, (krateCaptures p).isSome = true)
    (hs : krateCaptures s = none) :
    assembleExplicit (pre ++ s :: post) =
      (["invalid package name / version `" ++ s ++ "`, try `foo` or `foo=0.1`"],
       Except.error ()) := by
  induction pre with
  | nil => simp [assembleExplicit, hs]
  | cons p pre ih =>
    obtain ⟨k, hk⟩ :=
      Option.isSome_iff_exists.mp (hpre p (List.mem_cons_self _ _))
    have ih' := ih (fun q hq => hpre q (List.mem_cons_of_mem _ hq))
    simp [assembleExplicit, hk, ih', Except.map]

/-- C4: the claim that an unparsable specifier is merely reported and
excluded while assembly continues is false on the code, on both
examples the claim gives.  The specifier "=1.0.0" is not rejected at
all: `Regex::captures` is unanchored, so it parses as the versionless
name "1.0.0".  The specifier "" is rejected, but the rejection aborts
the whole assembly: `collect::<Result<Vec<_>, ()>>()` stops at the first
`Err`, so the following specifier "serde" is neither parsed nor kept,
and `assemble_crate_names` returns `Err(())`. -/
theorem C4_counterexample :
    krateCaptures "=1.0.0" = some (KrateName.mk "1.0.0" none) ∧
    (assembleExplicit ["", "serde"]).2 = Except.error () ∧
    assemble_crate_names ["", "serde"] (FsTree.dir (some "index") []) =
      (["invalid package name / version ``, try `foo` or `foo=0.1`"],
       some (Except.error ())) := by
  refine ⟨by decide, rfl, rfl⟩

/-- C4 amended: when assembling from explicit specifiers, the first
specifier in which the grammar matches nowhere (for example "") is
reported with a diagnostic and makes the whole assembly return an error:
parsing stops there and the remaining specifiers are neither parsed nor
included.  "=1.0.0" is not rejected: the unanchored match parses it as
the name "1.0.0" with no version. -/
theorem C4_first_bad_spec_aborts (pre : List String) (s : String)
    (post : List String)
    (hpre : ∀ p ∈ pre, (krateCaptures p).isSome = true)
    (hs : krateCaptures s = none) :
    (assembleExplicit (pre ++ s :: post)).2 = Except.error () ∧
    (assembleExplicit (pre ++ s :: post)).1 =
      ["invalid package name / version `" ++ s ++ "`, try `foo` or `foo=0.1`"] ∧
    krateCaptures "=1.0.0" = some (KrateName.mk "1.0.0" none) := by
  rw [assembleExplicit_bad pre s post hpre hs]
  exact ⟨rfl, rfl, by decide⟩

/-- Witness for C4 at the specifier list ["serde", "", "tokio"]: the empty
specifier aborts assembly with one diagnostic; "tokio" is never parsed. -/
theorem C4_first_bad_spec_aborts_witness :
    (assembleExplicit ["serde", "", "tokio"]).2 = Except.error () ∧
    (assembleExplicit ["serde", "", "tokio"]).1 =
      ["invalid package name / version ``, try `foo` or `foo=0.1`"] ∧
    krateCaptures "=1.0.0" = some (KrateName.mk "1.0.0" none) :=
  C4_first_bad_spec_aborts ["serde"] "" ["tokio"]
    (by intro p hp; fin_cases hp; decide) (by decide)

/-- C5: if any specifier is the literal wildcard token, assembly ignores
every other specifier and enumerates the index; on an index with files
a, b, .hidden, meta.json and subdirectory c holding d it yields exactly
the files a, b and c/d in traversal order, each as a versionless package
identifier; every enumerated identifier is a surviving regular file's
name with no version; and the exclusion predicate on a decodable name is
exactly: starts with "." or ends with ".json". -/
theorem C5_wildcard_enumeration :
    (∀ (specs : List String) (index : FsTree),
      specs.any (fun s => s == "*") = true →
      assemble_crate_names specs index = assemble_crate_names ["*"] index) ∧
    assemble_crate_names ["*"] sampleIndex =
      ([], some (Except.ok
        [KrateName.mk "a" none, KrateName.mk "b" none,
         KrateName.mk "d" none])) ∧
    (∀ (index : FsTree) (names : List KrateName),
      wildcardNames index = some names →
      ∀ k ∈ names, k.version = none ∧ some k.name ∈ walkFiles index) ∧
    (∀ s : String, bad (some s) = (strStarts s "." || strEnds s ".json")) := by
  refine ⟨?_, ?_, ?_, fun s => rfl⟩
  · intro specs index h
    simp [assemble_crate_names, h]
  · simp +decide [assemble_crate_names, wildcardNames, sampleIndex,
      walkFiles, walkFilesList, bad, decodeNames]
  · intro index names h
    exact decodeNames_mem (walkFiles index) names h

/-- Witness for C5: the wildcard in ["foo", "*"] makes assembly ignore
the explicit specifier "foo". -/
theorem C5_wildcard_enumeration_witness :
    assemble_crate_names ["foo", "*"] sampleIndex =
      assemble_crate_names ["*"] sampleIndex :=
  C5_wildcard_enumeration.1 ["foo", "*"] sampleIndex (by decide)

/-- C9: invoking the harness with only the program name (an argument
vector of length 1) never reaches Docopt argument parsing: `main` first
indexes `args[1]` to test for the hidden `--recurse` token, so the
invocation panics with an out-of-bounds index (modelled by `none`)
instead of printing the usage text; with a second element present the
dispatch on `--recurse` is what runs first. -/
theorem C9_no_args_panics (argv : List String) (h : argv.length ≤ 1) :
    mainDispatch argv = none ∧
    ∀ (prog a : String) (rest : List String),
      mainDispatch (prog :: a :: rest) = some (a == "--recurse") := by
  refine ⟨?_, fun prog a rest => rfl⟩
  match argv, h with
  | [], _ => rfl
  | [p], _ => rfl

/-- Witness for C9 at the argument vector ["cargo-apply"]. -/
theorem C9_no_args_panics_witness : mainDispatch ["cargo-apply"] = none :=
  (C9_no_args_panics ["cargo-apply"] (by decide)).1

/-- C10: in the wildcard enumeration, a regular file whose name is not
valid UTF-8 (modelled by a `none` name) is not excluded by `bad` — the
`unwrap_or(false)` maps an undecodable name to "not bad" — and the
subsequent `to_str().unwrap()` panics, so the whole assembly aborts
(yields no list at all) instead of skipping or including the entry. -/
theorem C10_nonUtf8_panics :
    bad none = false ∧
    (∀ index : FsTree, none ∈ walkFiles index → wildcardNames index = none) ∧
    assemble_crate_names ["*"] sampleBadIndex = ([], none) := by
  refine ⟨rfl, ?_, ?_⟩
  · intro index hmem
    exact decodeNames_none (walkFiles index) hmem
  · simp +decide [assemble_crate_names, wildcardNames, sampleBadIndex,
      walkFiles, walkFilesList, bad, decodeNames]

/-- Witness for C10: the undecodable file of `sampleBadIndex` survives
the `bad` filter and makes the enumeration panic. -/
theorem C10_nonUtf8_panics_witness : wildcardNames sampleBadIndex = none :=
  C10_nonUtf8_panics.2.1 sampleBadIndex
    (by simp +decide [sampleBadIndex, walkFiles, walkFilesList, bad])

/-- A child output of a successfully exited attempt. -/
def outW : ChildOut :=
  ChildOut.mk "hello" "" "ExitStatus(unix_wait_status(0))" true

/-- A child output of an attempt killed by a signal: the child
terminated abnormally, `status.success()` is false. -/
def outCrashed : ChildOut :=
  ChildOut.mk "" "" "ExitStatus(unix_wait_status(11))" false

/-- A concrete child oracle: spawning the child for the package named
"bad" fails outright; the package "crash" dies by signal; every other
child exits cleanly. -/
def childW : KrateName → Except String ChildOut := fun k =>
  if k.name = "bad" then Except.error "spawn failed"
  else if k.name = "crash" then Except.ok outCrashed
  else Except.ok outW

/-- Concrete packages for the driver-loop witnesses. -/
def kW : KrateName := KrateName.mk "serde" none

/-- A package whose child spawn fails. -/
def kBad : KrateName := KrateName.mk "bad" none

/-- A package whose child crashes. -/
def kCrash : KrateName := KrateName.mk "crash" none

/-- An output directory that already holds a result record for `kW`. -/
def stMarked : Sim := Sim.mk [(("serde", FileKind.results), "old")] []

/-- An empty output directory. -/
def stEmpty : Sim := Sim.mk [] []

theorem key_stdout_ne_results (s : String) :
    ((s, FileKind.stdout) : FKey) ≠ (s, FileKind.results) :=
  fun h => by simpa using congrArg Prod.snd h

theorem key_stdout_ne_stderr (s : String) :
    ((s, FileKind.stdout) : FKey) ≠ (s, FileKind.stderr) :=
  fun h => by simpa using congrArg Prod.snd h

theorem key_stderr_ne_results (s : String) :
    ((s, FileKind.stderr) : FKey) ≠ (s, FileKind.results) :=
  fun h => by simpa using congrArg Prod.snd h

/-- C2: whenever an attempt writes the result marker `results.txt`, that
write is the last filesystem action of the attempt: the trace ends with
it, and strictly before it the child was spawned and awaited, both stdio
capture files were created and written, and any stale marker had been
removed — so a marker can only exist for a fully completed attempt. -/
theorem C2_marker_written_last (force : Bool)
    (child : KrateName → Except String ChildOut) (k : KrateName) (st : Sim)
    (hmem : FsEvent.createWrite (krateStr k, FileKind.results) ∈
      (process_crate force child k st).2.2) :
    ∃ pre, (process_crate force child k st).2.2 =
        pre ++ [FsEvent.createWrite (krateStr k, FileKind.results)] ∧
      FsEvent.spawn k ∈ pre ∧
      FsEvent.createWrite (krateStr k, FileKind.stdout) ∈ pre ∧
      FsEvent.createWrite (krateStr k, FileKind.stderr) ∈ pre ∧
      FsEvent.removeFile (krateStr k, FileKind.results) ∈ pre := by
  by_cases hcond :
      ((fsGet st.files (krateStr k, FileKind.results)).isSome && !force) = true
  · have h' := hcond
    simp only [Bool.and_eq_true] at h'
    have hf : force = false := by simpa using h'.2
    rw [process_crate_skip force child k st h'.1 hf] at hmem
    simp at hmem
  · have hcond' :
        ((fsGet st.files (krateStr k, FileKind.results)).isSome && !force)
          = false := by
      simpa using hcond
    cases hc : child k with
    | error e =>
      rw [process_crate_run_err force child k st e hcond' hc] at hmem
      simp at hmem
    | ok out =>
      rw [process_crate_run_ok force child k st out hcond' hc]
      exact ⟨[FsEvent.createDirAll (krateStr k),
        FsEvent.removeFile (krateStr k, FileKind.stdout),
        FsEvent.removeFile (krateStr k, FileKind.stderr),
        FsEvent.removeFile (krateStr k, FileKind.results),
        FsEvent.spawn k,
        FsEvent.createWrite (krateStr k, FileKind.stdout),
        FsEvent.createWrite (krateStr k, FileKind.stderr)],
        rfl, by simp, by simp, by simp, by simp⟩

/-- Witness for C2 at package `kW` over an empty output directory with a
cleanly exiting child. -/
theorem C2_marker_written_last_witness :
    ∃ pre, (process_crate false childW kW stEmpty).2.2 =
        pre ++ [FsEvent.createWrite (krateStr kW, FileKind.results)] ∧
      FsEvent.spawn kW ∈ pre ∧
      FsEvent.createWrite (krateStr kW, FileKind.stdout) ∈ pre ∧
      FsEvent.createWrite (krateStr kW, FileKind.stderr) ∈ pre ∧
      FsEvent.removeFile (krateStr kW, FileKind.results) ∈ pre :=
  C2_marker_written_last false childW kW stEmpty (by decide)

/-- C6: with force set and a result record present, the attempt is redone
from scratch: the old stdout, stderr and marker files are removed before
the child is spawned (the full trace shows removals strictly preceding
the spawn and the fresh create-writes), and afterwards the three files
hold exactly the new attempt's data, whatever they held before; without
force, a package with an existing result record is skipped: the call
returns `Ok` having changed no file at all. -/
theorem C6_force_semantics (child : KrateName → Except String ChildOut)
    (k : KrateName) (st : Sim) (out : ChildOut)
    (hres : (fsGet st.files (krateStr k, FileKind.results)).isSome = true) :
    (child k = Except.ok out →
      (process_crate true child k st).2.2 =
        [FsEvent.createDirAll (krateStr k),
         FsEvent.removeFile (krateStr k, FileKind.stdout),
         FsEvent.removeFile (krateStr k, FileKind.stderr),
         FsEvent.removeFile (krateStr k, FileKind.results),
         FsEvent.spawn k,
         FsEvent.createWrite (krateStr k, FileKind.stdout),
         FsEvent.createWrite (krateStr k, FileKind.stderr),
         FsEvent.createWrite (krateStr k, FileKind.results)] ∧
      fsGet (process_crate true child k st).2.1.files
        (krateStr k, FileKind.stdout) = some out.stdout ∧
      fsGet (process_crate true child k st).2.1.files
        (krateStr k, FileKind.stderr) = some out.stderr ∧
      fsGet (process_crate true child k st).2.1.files
        (krateStr k, FileKind.results) =
          some ("exit code `" ++ out.statusRepr ++ "`")) ∧
    process_crate false child k st =
      (Except.ok (),
       { st with log := st.log ++ [krateStr k ++ ": re-using existing results"] },
       [FsEvent.createDirAll (krateStr k)]) := by
  constructor
  · intro hc
    have hcond :
        ((fsGet st.files (krateStr k, FileKind.results)).isSome && !true)
          = false := by
      simp
    rw [process_crate_run_ok true child k st out hcond hc]
    refine ⟨rfl, ?_, ?_, fsGet_fsSet_self _ _ _⟩
    · rw [fsGet_fsSet_ne _ _ _ _ (key_stdout_ne_results (krateStr k)),
        fsGet_fsSet_ne _ _ _ _ (key_stdout_ne_stderr (krateStr k)),
        fsGet_fsSet_self]
    · rw [fsGet_fsSet_ne _ _ _ _ (key_stderr_ne_results (krateStr k)),
        fsGet_fsSet_self]
  · exact process_crate_skip false child k st hres rfl

/-- Witness for C6: without force the marked package `kW` is skipped with
its files untouched. -/
theorem C6_force_semantics_witness :
    process_crate false childW kW stMarked =
      (Except.ok (),
       { stMarked with
         log := stMarked.log ++ [krateStr kW ++ ": re-using existing results"] },
       [FsEvent.createDirAll (krateStr kW)]) :=
  (C6_force_semantics childW kW stMarked outW (by decide)).2

/-- C1: per-package failures are contained by the driver loop.  The
harness exits 0 whatever the per-package results are; the loop on
`k :: ks` always continues with `ks` from the stepped state, whatever
happened to `k`; when the attempt's child invocation itself fails the
error is caught and printed as `"{krate}: error `{err}`"` and the loop
state merely gains that diagnostic; and any package whose own child
terminates (even abnormally, with a non-success status) ends the run
with its result recorded, regardless of every other package's
failures. -/
theorem C1_failures_contained (force : Bool)
    (child : KrateName → Except String ChildOut) (crates : List KrateName)
    (st : Sim) :
    driverExit force child crates st = 0 ∧
    (∀ (k : KrateName) (ks : List KrateName) (st0 : Sim),
      runCrates force child (k :: ks) st0 =
        ((runCrates force child ks (stepState force child k st0)).1,
         (process_crate force child k st0).2.2 ++
           (runCrates force child ks (stepState force child k st0)).2)) ∧
    (∀ (k : KrateName) (st0 : Sim) (e : String),
      child k = Except.error e →
      ((fsGet st0.files (krateStr k, FileKind.results)).isSome && !force)
        = false →
      (stepState force child k st0).log =
        st0.log ++ [krateStr k ++ ": processing",
          krateStr k ++ ": error `" ++ e ++ "`"]) ∧
    (∀ k, k ∈ crates →
      (∀ k' ∈ crates, krateStr k' = krateStr k → exceptOk (child k') = true) →
      (fsGet (runCrates force child crates st).1.files
        (krateStr k, FileKind.results)).isSome = true) :=
  ⟨rfl,
   fun k ks st0 => runCrates_cons force child k ks st0,
   fun k st0 e he hcond => stepState_err_log force child k st0 e hcond he,
   fun k hk hok => runCrates_marker_after force child crates st k hk hok⟩

/-- Witness for C1: with the spawn of `kBad` failing and the child of
`kCrash` dying by a signal, the later package `kW` is still attempted
and ends the run with its result recorded. -/
theorem C1_failures_contained_witness :
    (fsGet (runCrates false childW [kBad, kCrash, kW] stEmpty).1.files
      (krateStr kW, FileKind.results)).isSome = true :=
  (C1_failures_contained false childW [kBad, kCrash, kW] stEmpty).2.2.2 kW
    (by decide) (by decide)

theorem spawnsOf_createDirs (l : List KrateName) :
    spawnsOf (l.map (fun k => FsEvent.createDirAll (krateStr k))) = [] := by
  induction l with
  | nil => rfl
  | cons k ks ih => simp [spawnsOf, ih]

/-- C3: a second run with identical arguments and no force performs no
additional work.  When every package of the set already has a result
record, the run leaves every file byte-for-byte unchanged, spawns no
child at all, and only prints one re-use line per package; in general
(no force), the files of a package holding a result record are never
touched by the run, and with pairwise distinct identifier strings the
packages attempted are exactly those without a record, in the original
order. -/
theorem C3_idempotent_resume (child : KrateName → Except String ChildOut)
    (crates : List KrateName) (st : Sim) :
    ((∀ k ∈ crates,
        (fsGet st.files (krateStr k, FileKind.results)).isSome = true) →
      runCrates false child crates st =
        (Sim.mk st.files (st.log ++
           crates.map (fun k => krateStr k ++ ": re-using existing results")),
         crates.map (fun k => FsEvent.createDirAll (krateStr k))) ∧
      spawnsOf (runCrates false child crates st).2 = []) ∧
    (∀ (s : String) (kind : FileKind),
      (fsGet st.files (s, FileKind.results)).isSome = true →
      fsGet (runCrates false child crates st).1.files (s, kind) =
        fsGet st.files (s, kind)) ∧
    ((crates.map krateStr).Nodup →
      spawnsOf (runCrates false child crates st).2 =
        crates.filter
          (fun k => (fsGet st.files (krateStr k, FileKind.results)).isNone)) := by
  refine ⟨?_, ?_, ?_⟩
  · intro h
    have heq := runCrates_all_marked child crates st h
    refine ⟨heq, ?_⟩
    rw [heq]
    exact spawnsOf_createDirs crates
  · intro s kind hres
    exact runCrates_marked_untouched child crates st s kind hres
  · intro hnd
    exact runCrates_spawns_filter child crates st hnd

/-- Witness for C3: a rerun over the already-recorded package `kW` does
no work — identical files, no child spawned, one re-use line. -/
theorem C3_idempotent_resume_witness :
    runCrates false childW [kW] stMarked =
      (Sim.mk stMarked.files (stMarked.log ++
         [kW].map (fun k => krateStr k ++ ": re-using existing results")),
       [kW].map (fun k => FsEvent.createDirAll (krateStr k))) ∧
    spawnsOf (runCrates false childW [kW] stMarked).2 = [] :=
  (C3_idempotent_resume childW [kW] stMarked).1 (by decide)

theorem runCrates_marker_content (force : Bool)
    (child : KrateName → Except String ChildOut) (crates : List KrateName)
    (st : Sim) (k : KrateName) (out : ChildOut)
    (hnd : (crates.map krateStr).Nodup) (hk : k ∈ crates)
    (hout : child k = Except.ok out)
    (habs : (fsGet st.files (krateStr k, FileKind.results)).isSome = false ∨
      force = true) :
    fsGet (runCrates force child crates st).1.files (krateStr k, FileKind.results)
      = some ("exit code `" ++ out.statusRepr ++ "`") := by
  induction crates generalizing st with
  | nil => cases hk
  | cons k0 ks ih =>
    have hnd0 : (∀ x ∈ ks, ¬krateStr x = krateStr k0) ∧
        (ks.map krateStr).Nodup := by
      simpa using hnd
    rw [runCrates_cons]
    rcases List.mem_cons.mp hk with heq | hmem
    · subst heq
      have hcond :
          ((fsGet st.files (krateStr k, FileKind.results)).isSome && !force)
            = false := by
        rcases habs with h | h <;> simp [h]
      have hother : ∀ k' ∈ ks,
          ((krateStr k, FileKind.results) : FKey).1 ≠ krateStr k' :=
        fun k' hk' he => hnd0.1 k' hk' he.symm
      rw [runCrates_files_other force child ks _ _ hother, stepState_files,
        process_crate_run_ok force child k st out hcond hout]
      exact fsGet_fsSet_self _ _ _
    · have hne : ((krateStr k, FileKind.results) : FKey).1 ≠ krateStr k0 :=
        fun he => hnd0.1 k hmem he
      have hpres :
          fsGet (stepState force child k0 st).files (krateStr k, FileKind.results)
            = fsGet st.files (krateStr k, FileKind.results) :=
        stepState_files_other force child k0 st _ hne
      refine ih _ hnd0.2 hmem ?_
      rcases habs with h | h
      · exact Or.inl (by rw [hpres]; exact h)
      · exact Or.inr h

/-- Delegate oracle of an attempt on a package that is not in the
registry: the query succeeds but returns no version. -/
def notFoundDelegate : Delegate :=
  Delegate.mk (Except.ok ()) (Except.ok []) (Except.ok ())
    (Except.ok 0) (Except.ok 0) (Except.ok 0)

/-- Delegate oracle of an attempt whose compile stage fails. -/
def buildFailDelegate : Delegate :=
  Delegate.mk (Except.ok ()) (Except.ok [1]) (Except.ok ())
    (Except.error "compile failed") (Except.ok 0) (Except.ok 0)

/-- The default flag set: no tests, no benchmarks, no force. -/
def plainArgs : Args := Args.mk "work" false false false false

/-- C7 counterexample: the recorded result cannot classify the attempt
into the six outcome kinds.  A not-in-registry attempt (the spec's
NotFound) and a compile-failure attempt (the spec's BuildFailed) both
end in the child's unwrap panic, status 101, and the marker records only
that status, so the two result records are byte-identical — no reading
of the record can assign NotFound to the one and BuildFailed to the
other. -/
theorem C7_counterexample :
    build_crate plainArgs kW notFoundDelegate =
      Except.error (BuildErr.notInRegistry kW) ∧
    build_crate plainArgs kW buildFailDelegate =
      Except.error (BuildErr.compileErr "compile failed") ∧
    resultRecord (statusReprOf (recStatus plainArgs kW notFoundDelegate)) =
      resultRecord (statusReprOf (recStatus plainArgs kW buildFailDelegate)) ∧
    ¬ ∃ classify : String → SpecOutcome,
        classify (resultRecord (statusReprOf
          (recStatus plainArgs kW notFoundDelegate))) = SpecOutcome.notFound ∧
        classify (resultRecord (statusReprOf
          (recStatus plainArgs kW buildFailDelegate))) = SpecOutcome.buildFailed := by
  refine ⟨rfl, rfl, rfl, ?_⟩
  rintro ⟨f, h1, h2⟩
  exact SpecOutcome.noConfusion (h1.symm.trans h2)

/-- C7 amended: after a run in which every child terminates, each package
of the assembled set has exactly one result record; the record's content
is a function of the child's exit status alone — `build_crate` success
exits 0, every classified stage error exits through the same unwrap
panic with status 101 — so the record distinguishes success from failure
but not which of the failure kinds occurred. -/
theorem C7_exactly_one_record (force : Bool)
    (child : KrateName → Except String ChildOut) (crates : List KrateName)
    (st : Sim) (k : KrateName) (out : ChildOut)
    (hwf : fsWf st.files) (hnd : (crates.map krateStr).Nodup)
    (hk : k ∈ crates) (hout : child k = Except.ok out)
    (hok : ∀ k' ∈ crates, krateStr k' = krateStr k → exceptOk (child k') = true)
    (habs : (fsGet st.files (krateStr k, FileKind.results)).isSome = false ∨
      force = true) :
    fsCount (runCrates force child crates st).1.files
      (krateStr k, FileKind.results) = 1 ∧
    fsGet (runCrates force child crates st).1.files (krateStr k, FileKind.results)
      = some ("exit code `" ++ out.statusRepr ++ "`") ∧
    (∀ (args : Args) (k0 : KrateName) (d : Delegate),
      recStatus args k0 d =
        if exceptOk (build_crate args k0 d) then 0 else 101) := by
  have hsome :=
    runCrates_marker_after force child crates st k hk hok
  have hwf' := runCrates_wf force child crates st hwf
  constructor
  · exact Nat.le_antisymm (hwf' _) (fsCount_pos_of_isSome _ _ hsome)
  constructor
  · exact runCrates_marker_content force child crates st k out hnd hk hout habs
  · intro args k0 d
    cases hbc : build_crate args k0 d <;> simp [recStatus, hbc, exceptOk]

/-- Witness for C7: the fresh run over `kW` alone records exactly one
marker holding the child's exit status. -/
theorem C7_exactly_one_record_witness :
    fsCount (runCrates false childW [kW] stEmpty).1.files
      (krateStr kW, FileKind.results) = 1 ∧
    fsGet (runCrates false childW [kW] stEmpty).1.files
      (krateStr kW, FileKind.results)
      = some ("exit code `" ++ outW.statusRepr ++ "`") ∧
    (∀ (args : Args) (k0 : KrateName) (d : Delegate),
      recStatus args k0 d =
        if exceptOk (build_crate args k0 d) then 0 else 101) :=
  C7_exactly_one_record false childW [kW] stEmpty kW outW
    (by intro key; simp [stEmpty, fsCount]) (by decide) (by decide) rfl
    (by decide) (by decide)

/-- Delegate oracle of an attempt in which build and tests succeed but
the benchmark stage fails. -/
def benchFailDelegate : Delegate :=
  Delegate.mk (Except.ok ()) (Except.ok [1]) (Except.ok ())
    (Except.ok 7) (Except.ok 3) (Except.error "bench failed")

/-- The same delegate with a passing benchmark. -/
def benchOkDelegate : Delegate :=
  Delegate.mk (Except.ok ()) (Except.ok [1]) (Except.ok ())
    (Except.ok 7) (Except.ok 3) (Except.ok 5)

/-- Flags with tests and benchmarks enabled. -/
def benchArgs : Args := Args.mk "work" false true true false

/-- C8 counterexample: with benchmarks enabled and every earlier stage
succeeding, a benchmark failure is not treated as non-fatal logging —
`ops::run_benches(..)?` propagates it, `build_crate` returns the bench
error, and the child exits 101, downgrading the recorded outcome; the
identical delegate with a passing benchmark yields `Ok` and exit 0. -/
theorem C8_counterexample :
    build_crate benchArgs kW benchFailDelegate =
      Except.error (BuildErr.benchErr "bench failed") ∧
    recStatus benchArgs kW benchFailDelegate = 101 ∧
    build_crate benchArgs kW benchOkDelegate =
      Except.ok (7, some 3, some 5) ∧
    recStatus benchArgs kW benchOkDelegate = 0 := by
  exact ⟨rfl, rfl, rfl, rfl⟩

/-- C8 amended: when benchmarks are enabled, a failure of the benchmark
stage for a package whose resolution, download, build and (if enabled)
tests all succeeded is propagated as an error, not logged as non-fatal
information: `build_crate` returns the benchmark error and the
re-invoked child panics on `unwrap` and exits with status 101, so the
package's recorded result is downgraded to a failure. -/
theorem C8_bench_failure_downgrades (args : Args) (k : KrateName)
    (d : Delegate) (pkgs : List Nat) (p bt tt : Nat) (m : String)
    (hb : args.flag_bench = true)
    (h1 : d.depParse = Except.ok ())
    (h2 : d.query = Except.ok pkgs)
    (h3 : pkgs.max? = some p)
    (h4 : d.download = Except.ok ())
    (h5 : d.compile = Except.ok bt)
    (h6 : args.flag_test = true → d.test = Except.ok tt)
    (h7 : d.bench = Except.error m) :
    build_crate args k d = Except.error (BuildErr.benchErr m) ∧
    recStatus args k d = 101 := by
  have hbc : build_crate args k d = Except.error (BuildErr.benchErr m) := by
    by_cases ht : args.flag_test = true
    · simp [build_crate, h1, h2, h3, h4, h5, h6 ht, h7, hb, ht, Except.map]
    · have ht' : args.flag_test = false := by
        simpa using ht
      simp [build_crate, h1, h2, h3, h4, h5, h7, hb, ht', Except.map]
  exact ⟨hbc, by simp [recStatus, hbc]⟩

/-- Witness for C8 on the concrete bench-failing delegate. -/
theorem C8_bench_failure_downgrades_witness :
    build_crate benchArgs kW benchFailDelegate =
      Except.error (BuildErr.benchErr "bench failed") ∧
    recStatus benchArgs kW benchFailDelegate = 101 :=
  C8_bench_failure_downgrades benchArgs kW benchFailDelegate [1] 1 7 3
    "bench failed" rfl rfl rfl (by decide) rfl rfl (fun _ => rfl) rfl

end CargoApply
